import Mathlib

/-!
Verification of the ticker-parsing and holdings-classification core of
`src/ETF_Pulls/process_holdings.py` (functions `parse_option_ticker`,
`classify_holding`, and the ticker-cleaning step of `process_etf_data`).

The Python code is shallowly embedded: strings are Lean `String`s viewed as
`List Char`, the regex search `re.search(r'(\d{6})([CP])(\d+)', s)` is
embedded as a left-to-right scan (`reSearch`), Python `ValueError`-raising
subroutines (`datetime.strptime`, `int`) are embedded as `Except`-valued
functions, and the `try/except` blocks convert their errors to `none`.
The `\d` class is modelled as the ASCII digits `0`-`9`, the relevant case
for option tickers. Floats are modelled as `ℚ`; the strike values involved
(integers divided by 1000) are exactly representable either way.
-/

namespace ProcessHoldings

/-- Python `ValueError`, the only exception relevant to the decoder's
`try/except ValueError` blocks. -/
inductive PyError where
  | valueError
deriving DecidableEq, Repr

deriving instance DecidableEq for Except

/-- Result of a successful `re.search(r'(\d{6})([CP])(\d+)', s)`:
the three captured groups. -/
structure MatchResult where
  dateDigits : List Char
  typeChar : Char
  strikeDigits : List Char
deriving DecidableEq, Repr

/-- Attempt of the regex `(\d{6})([CP])(\d+)` anchored at the head of the
list: six digits, then a literal `C` or `P`, then a maximal (greedy)
non-empty digit run. -/
def matchCodeAt : List Char → Option MatchResult
  | d1 :: d2 :: d3 :: d4 :: d5 :: d6 :: c :: rest =>
    if (d1.isDigit && d2.isDigit && d3.isDigit && d4.isDigit && d5.isDigit && d6.isDigit)
        && (c == 'C' || c == 'P') then
      match rest.takeWhile Char.isDigit with
      | [] => none
      | x :: xs => some ⟨[d1, d2, d3, d4, d5, d6], c, x :: xs⟩
    else none
  | _ => none

/-- Embedding of `re.search(r'(\d{6})([CP])(\d+)', s)`: try each start
position left to right and return the first (leftmost) match. -/
def reSearch : List Char → Option MatchResult
  | [] => none
  | c :: rest =>
    match matchCodeAt (c :: rest) with
    | some m => some m
    | none => reSearch rest

/-- Numeric value of a digit string, most significant digit first
(the value Python `int` computes on an all-digit string). -/
def digitsToNat (l : List Char) : Nat :=
  l.foldl (fun a c => 10 * a + (c.toNat - '0'.toNat)) 0

/-- Embedding of Python `int(s)` on the captured strike group: succeeds with
the numeric value on a non-empty all-digit string, raises `ValueError`
otherwise. -/
def pyInt (l : List Char) : Except PyError Nat :=
  match l with
  | [] => Except.error PyError.valueError
  | _ :: _ =>
    if l.all Char.isDigit then Except.ok (digitsToNat l)
    else Except.error PyError.valueError

/-- Gregorian leap-year rule, as used by Python `datetime`. -/
def isLeapYear (y : Nat) : Bool :=
  (y % 4 == 0 && y % 100 != 0) || (y % 400 == 0)

/-- Number of days in a month of a given year (Python `datetime` calendar). -/
def daysInMonth (y m : Nat) : Nat :=
  if m = 2 then (if isLeapYear y then 29 else 28)
  else if m = 4 ∨ m = 6 ∨ m = 9 ∨ m = 11 then 30
  else 31

/-- The POSIX two-digit-year pivot used by Python `strptime`'s `%y`:
`00`-`68` map to `2000`-`2068`, `69`-`99` map to `1969`-`1999`. -/
def pivotYear (yy : Nat) : Nat :=
  if yy ≤ 68 then 2000 + yy else 1900 + yy

/-- Embedding of `datetime.strptime(s, '%y%m%d')`: requires exactly six
digits, applies the `%y` century pivot, and validates the calendar date,
raising `ValueError` otherwise. -/
def strptime_yymmdd (l : List Char) : Except PyError (Nat × Nat × Nat) :=
  match l with
  | [a, b, c, d, e, f] =>
    if ([a, b, c, d, e, f].all Char.isDigit) then
      let yy := digitsToNat [a, b]
      let mm := digitsToNat [c, d]
      let dd := digitsToNat [e, f]
      let y := pivotYear yy
      if 1 ≤ mm ∧ mm ≤ 12 ∧ 1 ≤ dd ∧ dd ≤ daysInMonth y mm then
        Except.ok (y, mm, dd)
      else Except.error PyError.valueError
    else Except.error PyError.valueError
  | _ => Except.error PyError.valueError

/-- Two-digit zero-padded decimal rendering (`%m`, `%d`). -/
def pad2 (n : Nat) : String :=
  if n < 10 then "0" ++ toString n else toString n

/-- Embedding of `date_obj.strftime('%Y-%m-%d')` for years in 1000..9999. -/
def strftime_ymd : Nat × Nat × Nat → String
  | (y, m, d) => toString y ++ "-" ++ pad2 m ++ "-" ++ pad2 d

/-- The decoder's result tuple `(Expiration_Date_Formatted, Option_Type,
Strike_Price_Decimal)`; `none` models Python `None` / an absent field. -/
structure DecodedOption where
  expirationDate : Option String
  optionType : Option String
  strikePrice : Option ℚ
deriving DecidableEq, Repr

/-- Step 1 of the decoder's match branch (source comment
`# 1. Format Expiration Date (YYMMDD to YYYY-MM-DD)`, lines 33-38):
`try: ... strptime ... strftime ... except ValueError: expiration_date = None`. -/
def formatExpiration (dateDigits : List Char) : Option String :=
  match strptime_yymmdd dateDigits with
  | Except.ok ymd => some (strftime_ymd ymd)
  | Except.error _ => none

/-- Step 2 of the decoder's match branch (source comment
`# 2. Convert Strike Price (dividing by 1000)`, lines 40-44):
`try: strike_price = int(strike_raw) / 1000.0 except ValueError: None`. -/
def convertStrike (strikeDigits : List Char) : Option ℚ :=
  match pyInt strikeDigits with
  | Except.ok n => some ((n : ℚ) / 1000)
  | Except.error _ => none

/-- Embedding of `parse_option_ticker` (process_holdings.py lines 16-48):
search for the option-code pattern; on a match, format the date (absent on
`ValueError`), keep the captured type letter, and convert the strike by
dividing by 1000 (absent on `ValueError`); with no match return the
all-`None` tuple. -/
def parse_option_ticker (ticker : String) : DecodedOption :=
  match reSearch ticker.data with
  | none => ⟨none, none, none⟩
  | some m =>
    ⟨formatExpiration m.dateDigits, some (String.singleton m.typeChar),
      convertStrike m.strikeDigits⟩

/-- The same decoder body viewed in the exception monad: every fallible
subroutine call sits under its `try/except ValueError` handler exactly as in
the source, so an uncaught `Except.error` would model an exception
propagating to the caller. -/
def parse_option_ticker_run (ticker : String) : Except PyError DecodedOption :=
  match reSearch ticker.data with
  | none => Except.ok ⟨none, none, none⟩
  | some m =>
    Except.ok ⟨formatExpiration m.dateDigits, some (String.singleton m.typeChar),
      convertStrike m.strikeDigits⟩

/-- Embedding of `classify_holding` (process_holdings.py lines 50-67), with
`Put/Call` as an optional string (`pd.notna`/`pd.isna` become `some`/`none`)
and the row quantity as a rational. -/
def classify_holding (quantity : ℚ) (option_type : Option String) : String :=
  match option_type with
  | some t =>
    if quantity < 0 ∧ t = "C" then "CC"
    else if quantity < 0 ∧ t = "P" then "CSP"
    else "Long " ++ t
  | none => "Stock"

/-- Embedding of the pipeline's ticker-cleaning step
`df['Ticker'].astype(str).str.replace(' ', '')`
(process_holdings.py line 103): remove every space character. -/
def stripSpaces (s : String) : String :=
  String.mk (s.data.filter (fun c => c ≠ ' '))

/-- Executable reading of the spec-side pattern condition at one position:
the list starts with six digits, then `C` or `P`, then at least one digit. -/
def codeAt (t : List Char) : Bool :=
  match t with
  | d1 :: d2 :: d3 :: d4 :: d5 :: d6 :: c :: r =>
    (d1.isDigit && d2.isDigit && d3.isDigit && d4.isDigit && d5.isDigit && d6.isDigit)
      && (c == 'C' || c == 'P')
      && (match r with | d :: _ => d.isDigit | [] => false)
  | _ => false

/-- Spec-side condition (from section 8 of the spec): the string has some
substring matching `\d{6}[CP]\d+`. -/
def hasOptionCode : List Char → Bool
  | [] => false
  | c :: rest => codeAt (c :: rest) || hasOptionCode rest

/-- Well-formedness of a decoder result: the option type, when present, is
exactly "C" or "P", and the strike, when present, is non-negative. -/
def isWellFormed (r : DecodedOption) : Bool :=
  (r.optionType == none || r.optionType == some "C" || r.optionType == some "P")
    && (match r.strikePrice with
        | none => true
        | some q => decide (0 ≤ q))

/-! ## Basic lemmas about the embedded decoder -/

theorem parse_eq_of_none {s : String} (h : reSearch s.data = none) :
    parse_option_ticker s = ⟨none, none, none⟩ := by
  unfold parse_option_ticker
  rw [h]

theorem parse_eq_of_some {s : String} {m : MatchResult}
    (h : reSearch s.data = some m) :
    parse_option_ticker s =
      ⟨formatExpiration m.dateDigits, some (String.singleton m.typeChar),
        convertStrike m.strikeDigits⟩ := by
  unfold parse_option_ticker
  rw [h]

theorem matchCodeAt_inv {t : List Char} {m : MatchResult}
    (h : matchCodeAt t = some m) :
    (m.typeChar = 'C' ∨ m.typeChar = 'P') ∧ m.strikeDigits ≠ [] ∧
      m.strikeDigits.all Char.isDigit = true := by
  unfold matchCodeAt at h
  split at h
  case h_2 => exact absurd h (by simp)
  case h_1 d1 d2 d3 d4 d5 d6 c rest =>
    split at h
    case isFalse => exact absurd h (by simp)
    case isTrue hcond =>
      split at h
      case h_1 => exact absurd h (by simp)
      case h_2 x xs hrun =>
        injection h with h
        subst h
        simp only [Bool.and_eq_true, beq_iff_eq, Bool.or_eq_true] at hcond
        refine ⟨hcond.2, by simp, ?_⟩
        simp only [List.all_eq_true]
        intro a ha
        rw [← hrun] at ha
        exact List.mem_takeWhile_imp ha

theorem reSearch_inv {l : List Char} {m : MatchResult}
    (h : reSearch l = some m) :
    (m.typeChar = 'C' ∨ m.typeChar = 'P') ∧ m.strikeDigits ≠ [] ∧
      m.strikeDigits.all Char.isDigit = true := by
  induction l with
  | nil => simp [reSearch] at h
  | cons c rest ih =>
    rw [reSearch] at h
    cases hm : matchCodeAt (c :: rest) with
    | some m' =>
      rw [hm] at h
      injection h with h
      subst h
      exact matchCodeAt_inv hm
    | none =>
      rw [hm] at h
      exact ih h

theorem convertStrike_eq_of_digits {l : List Char} (hne : l ≠ [])
    (hd : l.all Char.isDigit = true) :
    convertStrike l = some ((digitsToNat l : ℚ) / 1000) := by
  cases l with
  | nil => exact absurd rfl hne
  | cons a t => simp [convertStrike, pyInt, hd]

theorem codeAt_of_matchCodeAt {t : List Char} {m : MatchResult}
    (h : matchCodeAt t = some m) : codeAt t = true := by
  unfold matchCodeAt at h
  split at h
  case h_2 => exact absurd h (by simp)
  case h_1 d1 d2 d3 d4 d5 d6 c rest =>
    split at h
    case isFalse => exact absurd h (by simp)
    case isTrue hcond =>
      split at h
      case h_1 => exact absurd h (by simp)
      case h_2 x xs hrun =>
        simp only [codeAt]
        rw [hcond, Bool.true_and]
        cases rest with
        | nil => simp at hrun
        | cons r rs =>
          simp only [List.takeWhile] at hrun
          cases hr : r.isDigit with
          | true => exact hr
          | false => rw [hr] at hrun; simp at hrun

theorem hasOptionCode_of_reSearch {l : List Char} {m : MatchResult}
    (h : reSearch l = some m) : hasOptionCode l = true := by
  induction l with
  | nil => simp [reSearch] at h
  | cons c rest ih =>
    rw [reSearch] at h
    unfold hasOptionCode
    cases hm : matchCodeAt (c :: rest) with
    | some m' => simp [codeAt_of_matchCodeAt hm]
    | none =>
      rw [hm] at h
      simp [ih h]

/-! ## Claim theorems -/

/-- C1 (counterexample): the claimed fixed 2000s-century rule is false on the
code: the ticker `XYZ991219C00010000` (YY = 99) decodes to the expiration
date `1999-12-19`, not `2099-12-19`, because `strptime`'s `%y` maps 69-99
into the 1900s. -/
theorem C1_counterexample :
    (parse_option_ticker "XYZ991219C00010000").expirationDate = some "1999-12-19" ∧
      (parse_option_ticker "XYZ991219C00010000").expirationDate ≠ some "2099-12-19" := by
  have h := parse_eq_of_some
    (s := "XYZ991219C00010000") (m := ⟨"991219".data, 'C', "00010000".data⟩) (by decide)
  rw [h]
  exact ⟨by decide, by decide⟩

/-- C1 (amended): whenever the decoder's date step accepts the six digits,
the resulting year follows the POSIX `%y` pivot: `YY` in [00,68] yields
`20YY` and `YY` in [69,99] yields `19YY`. -/
theorem C1_amended_century_pivot (a b c d e f : Char) (y mo dy : Nat)
    (h : strptime_yymmdd [a, b, c, d, e, f] = Except.ok (y, mo, dy)) :
    (digitsToNat [a, b] ≤ 68 → y = 2000 + digitsToNat [a, b]) ∧
      (69 ≤ digitsToNat [a, b] → y = 1900 + digitsToNat [a, b]) := by
  simp only [strptime_yymmdd] at h
  split at h
  case isTrue =>
    split at h
    case isTrue =>
      injection h with h
      obtain ⟨hy, -⟩ := Prod.mk.injEq .. ▸ h
      subst hy
      refine ⟨fun hle => ?_, fun hge => ?_⟩
      · rw [pivotYear, if_pos hle]
      · rw [pivotYear, if_neg (by omega)]
    case isFalse => exact absurd h (by simp)
  case isFalse => exact absurd h (by simp)

/-- C1 (witness): the amended pivot rule at the concrete digits `991219`. -/
theorem C1_witness :
    strptime_yymmdd "991219".data = Except.ok (1999, 12, 19) ∧
      1999 = 1900 + digitsToNat "99".data :=
  ⟨by decide,
    (C1_amended_century_pivot '9' '9' '1' '2' '1' '9' 1999 12 19 (by decide)).2 (by decide)⟩

/-- C2 (counterexample): the decoder does not strip embedded spaces: on the
spec's own example `"AAPL 240621 P 00150000"` it returns the all-absent
tuple rather than `("2024-06-21", "P", 150.0)`. -/
theorem C2_counterexample :
    parse_option_ticker "AAPL 240621 P 00150000" = ⟨none, none, none⟩ ∧
      (⟨none, none, none⟩ : DecodedOption) ≠
        ⟨some "2024-06-21", some "P", some 150⟩ := by
  refine ⟨parse_eq_of_none (by decide), ?_⟩
  intro hcontra
  simp at hcontra

/-- C2 (amended): whitespace removal is done by the caller, not the decoder:
`process_etf_data` replaces every space in the ticker column before parsing,
and on the space-stripped ticker the decoder returns
`("2024-06-21", "P", 150.0)`. -/
theorem C2_amended_caller_strips :
    stripSpaces "AAPL 240621 P 00150000" = "AAPL240621P00150000" ∧
      parse_option_ticker (stripSpaces "AAPL 240621 P 00150000") =
        ⟨some "2024-06-21", some "P", some 150⟩ := by
  refine ⟨by decide, ?_⟩
  have h := parse_eq_of_some
    (s := stripSpaces "AAPL 240621 P 00150000")
    (m := ⟨"240621".data, 'P', "00150000".data⟩) (by decide)
  rw [h, DecodedOption.mk.injEq]
  refine ⟨by decide, by decide, ?_⟩
  rw [convertStrike_eq_of_digits (by decide) (by decide),
    show digitsToNat "00150000".data = 150000 from by decide]
  norm_num

/-- C3 (counterexample): decoding is not all-or-nothing: on
`XYZ999999C00010000` the option type is present while the expiration date is
absent. -/
theorem C3_counterexample :
    (parse_option_ticker "XYZ999999C00010000").optionType = some "C" ∧
      (parse_option_ticker "XYZ999999C00010000").expirationDate = none := by
  have h := parse_eq_of_some
    (s := "XYZ999999C00010000") (m := ⟨"999999".data, 'C', "00010000".data⟩) (by decide)
  rw [h]
  exact ⟨by decide, by decide⟩

/-- C3 (amended): for every input either all three fields are absent (no
match), or the option type and strike price are both present and only the
expiration date may be absent (invalid calendar digits). -/
theorem C3_amended_partial_presence (s : String) :
    parse_option_ticker s = ⟨none, none, none⟩ ∨
      ((parse_option_ticker s).optionType.isSome = true ∧
        (parse_option_ticker s).strikePrice.isSome = true) := by
  cases hr : reSearch s.data with
  | none => exact Or.inl (parse_eq_of_none hr)
  | some m =>
    right
    obtain ⟨-, hne, hd⟩ := reSearch_inv hr
    rw [parse_eq_of_some hr]
    exact ⟨rfl, by simp [convertStrike_eq_of_digits hne hd]⟩

/-- C4 (confirmed): the classifier maps a present Call to `CC` exactly when
the quantity is negative and to `Long C` otherwise (including zero), a
present Put to `CSP`/`Long P` likewise, and an absent type to `Stock`. -/
theorem C4_classifier_cases (q : ℚ) :
    classify_holding q (some "C") = (if q < 0 then "CC" else "Long C") ∧
      classify_holding q (some "P") = (if q < 0 then "CSP" else "Long P") ∧
      classify_holding q none = "Stock" := by
  refine ⟨?_, ?_, rfl⟩ <;> by_cases hq : q < 0 <;>
    simp [classify_holding, hq]

/-- C5 (confirmed): when a match is found but the six digits are rejected by
the date parse, the expiration date is absent while the option type and the
strike price are still returned. -/
theorem C5_invalid_date_partial (s : String) (m : MatchResult)
    (h : reSearch s.data = some m)
    (hbad : strptime_yymmdd m.dateDigits = Except.error PyError.valueError) :
    (parse_option_ticker s).expirationDate = none ∧
      (parse_option_ticker s).optionType = some (String.singleton m.typeChar) ∧
      (parse_option_ticker s).strikePrice =
        some ((digitsToNat m.strikeDigits : ℚ) / 1000) := by
  obtain ⟨-, hne, hd⟩ := reSearch_inv h
  rw [parse_eq_of_some h]
  refine ⟨?_, rfl, convertStrike_eq_of_digits hne hd⟩
  simp [formatExpiration, hbad]

/-- C5 (witness): the partial result on the spec's example
`XYZ999999C00010000`, whose strike decodes to 10. -/
theorem C5_witness :
    strptime_yymmdd "999999".data = Except.error PyError.valueError ∧
      (parse_option_ticker "XYZ999999C00010000").expirationDate = none ∧
      (parse_option_ticker "XYZ999999C00010000").optionType = some "C" ∧
      (parse_option_ticker "XYZ999999C00010000").strikePrice = some 10 := by
  have h := C5_invalid_date_partial "XYZ999999C00010000"
    ⟨"999999".data, 'C', "00010000".data⟩ (by decide) (by decide)
  refine ⟨by decide, h.1, h.2.1, ?_⟩
  rw [h.2.2, show digitsToNat "00010000".data = 10000 from by decide]
  norm_num

/-- C6 (confirmed): a string with no substring matching `\d{6}[CP]\d+`
decodes to the all-absent tuple. -/
theorem C6_no_code_all_absent (s : String)
    (h : hasOptionCode s.data = false) :
    parse_option_ticker s = ⟨none, none, none⟩ := by
  cases hr : reSearch s.data with
  | none => exact parse_eq_of_none hr
  | some m =>
    rw [hasOptionCode_of_reSearch hr] at h
    exact absurd h (by decide)

/-- C6 (witness): the plain-equity path on the ticker `AAPL`. -/
theorem C6_witness :
    hasOptionCode "AAPL".data = false ∧
      parse_option_ticker "AAPL" = ⟨none, none, none⟩ :=
  ⟨by decide, C6_no_code_all_absent "AAPL" (by decide)⟩

/-- C7 (confirmed): for every matched ticker the strike price is the integer
value of the trailing digit run divided by 1000; in particular the run
`00195000` yields 195 and `00000500` yields 1/2. -/
theorem C7_strike_division :
    (∀ (s : String) (m : MatchResult), reSearch s.data = some m →
        (parse_option_ticker s).strikePrice =
          some ((digitsToNat m.strikeDigits : ℚ) / 1000)) ∧
      (digitsToNat "00195000".data : ℚ) / 1000 = 195 ∧
      (digitsToNat "00000500".data : ℚ) / 1000 = 1 / 2 := by
  refine ⟨fun s m h => ?_, ?_, ?_⟩
  · obtain ⟨-, hne, hd⟩ := reSearch_inv h
    rw [parse_eq_of_some h]
    exact convertStrike_eq_of_digits hne hd
  · rw [show digitsToNat "00195000".data = 195000 from by decide]
    norm_num
  · rw [show digitsToNat "00000500".data = 500 from by decide]
    norm_num

/-- C7 (witness): the strike of `BWXT251219C00195000` equals the value of
its digit run divided by 1000. -/
theorem C7_witness :
    reSearch "BWXT251219C00195000".data =
        some ⟨"251219".data, 'C', "00195000".data⟩ ∧
      (parse_option_ticker "BWXT251219C00195000").strikePrice =
        some ((digitsToNat "00195000".data : ℚ) / 1000) :=
  ⟨by decide, C7_strike_division.1 "BWXT251219C00195000"
    ⟨"251219".data, 'C', "00195000".data⟩ (by decide)⟩

/-- C8 (confirmed): on every input the decoder, with its `try/except`
handlers embedded in the exception monad, returns `ok` of the same
well-formed tuple the total function computes: no `ValueError` from the date
or strike sub-parses reaches the caller. -/
theorem C8_total_no_raise (s : String) :
    parse_option_ticker_run s = Except.ok (parse_option_ticker s) ∧
      isWellFormed (parse_option_ticker s) = true := by
  constructor
  · unfold parse_option_ticker_run parse_option_ticker
    cases reSearch s.data <;> rfl
  · cases hr : reSearch s.data with
    | none => rw [parse_eq_of_none hr]; rfl
    | some m =>
      rw [parse_eq_of_some hr]
      obtain ⟨hc, hne, hd⟩ := reSearch_inv hr
      have h0 : (0 : ℚ) ≤ (digitsToNat m.strikeDigits : ℚ) / 1000 := by positivity
      simp only [isWellFormed, convertStrike_eq_of_digits hne hd, Bool.and_eq_true]
      refine ⟨?_, decide_eq_true h0⟩
      rcases hc with hc | hc <;> rw [hc] <;> decide

/-- C9 (confirmed): the decoder's search returns the match at the leftmost
starting position: every strictly earlier position fails to match. -/
theorem C9_leftmost_match (l : List Char) (m : MatchResult)
    (h : reSearch l = some m) :
    ∃ i, matchCodeAt (l.drop i) = some m ∧
      ∀ j < i, matchCodeAt (l.drop j) = none := by
  induction l with
  | nil => simp [reSearch] at h
  | cons c rest ih =>
    rw [reSearch] at h
    cases hm : matchCodeAt (c :: rest) with
    | some m' =>
      rw [hm] at h
      injection h with h
      subst h
      exact ⟨0, hm, fun j hj => absurd hj (Nat.not_lt_zero j)⟩
    | none =>
      rw [hm] at h
      obtain ⟨i, hi, hlt⟩ := ih h
      refine ⟨i + 1, hi, fun j hj => ?_⟩
      cases j with
      | zero => exact hm
      | succ j' => exact hlt j' (by omega)

/-- C9 (witness): `123456C1A999999P22` contains two matching substrings; the
decoder's search returns the leftmost one. -/
theorem C9_witness :
    matchCodeAt ("123456C1A999999P22".data.drop 9) =
        some ⟨"999999".data, 'P', "22".data⟩ ∧
      reSearch "123456C1A999999P22".data = some ⟨"123456".data, 'C', "1".data⟩ ∧
      ∃ i, matchCodeAt ("123456C1A999999P22".data.drop i) =
          some ⟨"123456".data, 'C', "1".data⟩ ∧
        ∀ j < i, matchCodeAt ("123456C1A999999P22".data.drop j) = none :=
  ⟨by decide, by decide,
    C9_leftmost_match "123456C1A999999P22".data ⟨"123456".data, 'C', "1".data⟩ (by decide)⟩

/-- C10 (confirmed): the option type and strike price are present or absent
together, and a present type is exactly "C" or "P" with the strike then
present: the defensive strike-absent branch never fires. -/
theorem C10_type_strike_together (s : String) :
    ((parse_option_ticker s).optionType = none ↔
        (parse_option_ticker s).strikePrice = none) ∧
      ∀ t, (parse_option_ticker s).optionType = some t →
        (t = "C" ∨ t = "P") ∧ (parse_option_ticker s).strikePrice.isSome = true := by
  cases hr : reSearch s.data with
  | none =>
    rw [parse_eq_of_none hr]
    exact ⟨by simp, fun t ht => by simp at ht⟩
  | some m =>
    rw [parse_eq_of_some hr]
    obtain ⟨hc, hne, hd⟩ := reSearch_inv hr
    have hs := convertStrike_eq_of_digits hne hd
    constructor
    · constructor
      · intro hcontra; simp at hcontra
      · intro hcontra
        rw [show (⟨formatExpiration m.dateDigits, some (String.singleton m.typeChar),
            convertStrike m.strikeDigits⟩ : DecodedOption).strikePrice =
            convertStrike m.strikeDigits from rfl, hs] at hcontra
        simp at hcontra
    · intro t ht
      have hts : t = String.singleton m.typeChar := by
        injection ht with h2
        exact h2.symm
      subst hts
      constructor
      · rcases hc with hc | hc <;> rw [hc]
        · exact Or.inl rfl
        · exact Or.inr rfl
      · rw [show (⟨formatExpiration m.dateDigits, some (String.singleton m.typeChar),
            convertStrike m.strikeDigits⟩ : DecodedOption).strikePrice =
            convertStrike m.strikeDigits from rfl, hs]
        rfl

/-- C10 (witness): on `BWXT251219C00195000` the present type is "C" and the
strike is present. -/
theorem C10_witness :
    (parse_option_ticker "BWXT251219C00195000").optionType = some "C" ∧
      ((("C" : String) = "C" ∨ ("C" : String) = "P") ∧
        (parse_option_ticker "BWXT251219C00195000").strikePrice.isSome = true) :=
  ⟨by decide, (C10_type_strike_together "BWXT251219C00195000").2 "C" (by decide)⟩

end ProcessHoldings
